import Mathlib

/-!
Verification of the `scriptshare` repository: three Python scripts
(`get_watch_violations.py`, `get_watch_violations_updated.py`,
`get_xray_violations.py`) that fetch Xray security violations page by
page, flatten them to a delimited file, and enrich each row with the
users that manage the impacted repository.

The embedding below translates the relevant Python functions into Lean:
Python strings are Lean `String`s with the string primitives the scripts
use (`strip`, `lower`, `endswith`, `replace`, `split`, `join`, `in`)
re-implemented structurally so that they evaluate; JSON values are the
inductive `JVal`; operations that can raise in Python return `Except PyErr`.
HTTP calls are abstracted by environments (one lookup outcome per loop
iteration / per requested page).
-/

namespace ScriptShare

/-! ### Python string primitives (structural re-implementations) -/

/-- Python `str.lower()` (ASCII case, which is all the scripts rely on). -/
def lowerStr (s : String) : String := ⟨s.data.map Char.toLower⟩

/-- Python `str.endswith(suffix)`. -/
def chEndsWith (s suffix : String) : Bool := suffix.data.isSuffixOf s.data

/-- Characters stripped by Python `str.strip()` with no argument. -/
def isPyWhitespace (c : Char) : Bool :=
  c = ' ' || c = '\t' || c = '\n' || c = '\r' || c = '\x0b' || c = '\x0c'

/-- Python `str.strip(chars)`: drop matching characters from both ends. -/
def pyStrip (p : Char → Bool) (s : String) : String :=
  ⟨((s.data.dropWhile p).reverse.dropWhile p).reverse⟩

/-- Python `s.split(sep)` for a one-character separator. -/
def splitCharAux (sep : Char) : List Char → List Char → List String
  | [], acc => [⟨acc.reverse⟩]
  | c :: rest, acc =>
    if c = sep then ⟨acc.reverse⟩ :: splitCharAux sep rest []
    else splitCharAux sep rest (c :: acc)

def splitChar (sep : Char) (s : String) : List String := splitCharAux sep s.data []

/-- Python `sub in s` for strings (substring containment). -/
def pyContainsAux (sub : List Char) : List Char → Bool
  | [] => sub.isEmpty
  | c :: rest => sub.isPrefixOf (c :: rest) || pyContainsAux sub rest

def pyContains (s sub : String) : Bool := pyContainsAux sub.data s.data

/-- Python `sep.join(parts)`. -/
def joinSep (sep : String) : List String → String
  | [] => ""
  | [x] => x
  | x :: y :: rest => x ++ sep ++ joinSep sep (y :: rest)

/-- Python `s.replace(pat, rep)`: replace every non-overlapping occurrence,
scanning left to right (noop on the empty pattern, as the scripts never use one).
The fuel argument is structural bookkeeping only; it starts at the length of the
string being scanned and each step consumes at least one character, so it never
runs out. -/
def pyReplaceAux (pat rep : List Char) : Nat → List Char → List Char
  | _, [] => []
  | 0, l => l
  | fuel + 1, c :: rest =>
    if pat.isPrefixOf (c :: rest) && !pat.isEmpty then
      rep ++ pyReplaceAux pat rep fuel (rest.drop (pat.length - 1))
    else
      c :: pyReplaceAux pat rep fuel rest

def pyReplace (s pat rep : String) : String :=
  ⟨pyReplaceAux pat.data rep.data s.data.length s.data⟩

example : pyReplace "a-cache-b" "-cache" "" = "a-b" := by decide
example : pyReplace "my-cache-repo-cache" "-cache" "" = "my-repo" := by decide
example : splitChar '/' "a/b/c" = ["a", "b", "c"] := by decide
example : splitChar '/' "abc" = ["abc"] := by decide
example : joinSep "|" ["u1", "u2", "u3"] = "u1|u2|u3" := by decide
example : pyStrip isPyWhitespace "  x " = "x" := by decide
example : pyContains "a/b" "/" = true := by decide
example : chEndsWith (lowerStr "Repo-CACHE") "-cache" = true := by decide

/-! ### JSON values and Python runtime semantics -/

/-- A JSON value as the scripts see it after `response.json()`. -/
inductive JVal where
  | jnull
  | jbool (b : Bool)
  | jnum (n : Int)
  | jstr (s : String)
  | jarr (xs : List JVal)
  | jobj (fields : List (String × JVal))

/-- The Python exceptions the modelled operations can raise (HTTP errors from
`raise_for_status` / request exceptions are folded into `httpError`). -/
inductive PyErr where
  | httpError
  | indexError
  | typeError
  | attributeError
  | keyError
deriving DecidableEq

/-- `d.get(k)` on the field list of a JSON object (first binding wins,
as in a Python dict, whose keys are unique). -/
def dictGet (fields : List (String × JVal)) (k : String) : Option JVal :=
  match fields with
  | [] => none
  | (k', v) :: rest => if k' = k then some v else dictGet rest k

/-- Python truthiness of a JSON value. -/
def pyTruthy : JVal → Bool
  | .jnull => false
  | .jbool b => b
  | .jnum n => n != 0
  | .jstr s => !s.data.isEmpty
  | .jarr xs => !xs.isEmpty
  | .jobj fs => !fs.isEmpty

/-- Python `v[0]`: first element of a list, first character of a string;
an `IndexError` when empty, a `KeyError` on a dict without key `0`, and a
`TypeError` on scalars. -/
def pyIndex0 : JVal → Except PyErr JVal
  | .jarr [] => .error .indexError
  | .jarr (x :: _) => .ok x
  | .jstr s =>
    match s.data with
    | [] => .error .indexError
    | c :: _ => .ok (.jstr ⟨[c]⟩)
  | .jobj _ => .error .keyError
  | _ => .error .typeError

/-- Extract the strings of a JSON array, failing on a non-string element. -/
def asStrList : List JVal → Except PyErr (List String)
  | [] => .ok []
  | .jstr s :: rest =>
    match asStrList rest with
    | .ok tail => .ok (s :: tail)
    | .error e => .error e
  | _ :: _ => .error .typeError

/-- Python `sep.join(v)`: joins a list of strings (or the characters of a
string); `TypeError` on anything else, including non-string list elements. -/
def pyJoin (sep : String) : JVal → Except PyErr String
  | .jarr xs =>
    match asStrList xs with
    | .ok strs => .ok (joinSep sep strs)
    | .error e => .error e
  | .jstr s => .ok (joinSep sep (s.data.map fun c => ⟨[c]⟩))
  | _ => .error .typeError

/-- Python `str(v)` for the scalar values the scripts feed it (containers are
rendered opaquely; the scripts only stringify scalars and fallback strings). -/
def pyStr : JVal → String
  | .jnull => "None"
  | .jbool true => "True"
  | .jbool false => "False"
  | .jnum n => toString n
  | .jstr s => s
  | .jarr _ => "[...]"
  | .jobj _ => "{...}"

/-- Python `v or d` (returns `d` when `v` is falsy). -/
def pyOr (v d : JVal) : JVal := if pyTruthy v then v else d

/-! ### `build_repo_user_map` (all three scripts; they differ only in the
join separator: `"|"` in `get_watch_violations.py` and
`get_watch_violations_updated.py`, `","` in `get_xray_violations.py`) -/

/-- `repo.strip().strip('"')` at the top of the loop body. -/
def cleanName (s : String) : String :=
  pyStrip (fun c => c = '"') (pyStrip isPyWhitespace s)

/-- `repon = repo_name.replace("-cache", "") if repo_name.lower().endswith("-cache") else repo_name`. -/
def reponOf (repo_name : String) : String :=
  if chEndsWith (lowerStr repo_name) "-cache" then pyReplace repo_name "-cache" ""
  else repo_name

/-- The storage URL queried for a repository (`f"{artifactory_url}/{repon}?permissions"`). -/
def storageUrl (server_base_url repon : String) : String :=
  server_base_url ++ "/artifactory/api/storage/" ++ repon ++ "?permissions"

/-- The loop scanning `groups.keys()` for the first key ending in `-manage`
(case-insensitively). -/
def findManageGroup : List String → Option String
  | [] => none
  | g :: rest => if chEndsWith (lowerStr g) "-manage" then some g else findManageGroup rest

/-- `permissions_data.get('principals', {}).get('groups', {})` followed by
`groups.keys()`; an `AttributeError` (caught by the caller) when an
intermediate value is not a dict. -/
def extractGroups (permissions_data : JVal) : Except PyErr (List String) := do
  let principals ←
    match permissions_data with
    | .jobj fs => Except.ok ((dictGet fs "principals").getD (.jobj []))
    | _ => Except.error .attributeError
  let groups ←
    match principals with
    | .jobj fs => Except.ok ((dictGet fs "groups").getD (.jobj []))
    | _ => Except.error .attributeError
  match groups with
  | .jobj fs => Except.ok (fs.map Prod.fst)
  | _ => Except.error .attributeError

/-- The outcome of the two HTTP lookups performed for one loop iteration of
`build_repo_user_map`: the permissions response, and, per group name, the
group-membership response. `Except.error` is a raised exception
(HTTP error, connection error, JSON decoding error, ...). -/
structure RepoEnv where
  perms : Except PyErr JVal
  groupResp : String → Except PyErr JVal

/-- The body of one `build_repo_user_map` iteration after name cleaning, up to
but not including the `except` clauses: either the computed enrichment value or
the exception that escapes to them. -/
def lookupUsersE (sep : String) (e : RepoEnv) : Except PyErr String := do
  let permissions_data ← e.perms
  let groups ← extractGroups permissions_data
  match findManageGroup groups with
  | none => Except.ok "NA"
  | some manage_group => do
    let users_data ← e.groupResp manage_group
    let members ←
      match users_data with
      | .jobj fs => Except.ok ((dictGet fs "members").getD (.jarr []))
      | _ => Except.error .attributeError
    if pyTruthy members then pyJoin sep members else Except.ok "NA"

/-- One `build_repo_user_map` iteration including the `except` handlers, which
assign the sentinel `"NA"` on any exception. -/
def lookupUsers (sep : String) (e : RepoEnv) : String :=
  match lookupUsersE sep e with
  | .ok v => v
  | .error _ => "NA"

/-- `repo_user_map[repo_name] = v` on a Python dict modelled as an association
list in insertion order (keys unique): update the key's binding in place if
present, else append the new binding at the end. -/
def dictInsert : List (String × String) → String → String → List (String × String)
  | [], k, v => [(k, v)]
  | (k', v') :: rest, k, v =>
    if k' = k then (k, v) :: rest else (k', v') :: dictInsert rest k v

/-- The loop of `build_repo_user_map` over the repository names, starting at
iteration index `i` with accumulated map `m`; `env i` abstracts the HTTP
outcomes of iteration `i`. -/
def buildRepoUserMapFrom (env : Nat → RepoEnv) (sep : String) :
    Nat → List String → List (String × String) → List (String × String)
  | _, [], m => m
  | i, repo :: rest, m =>
    buildRepoUserMapFrom env sep (i + 1) rest
      (dictInsert m (cleanName repo) (lookupUsers sep (env i)))

/-- `build_repo_user_map(server_base_url, access_token, violations_data)`. -/
def buildRepoUserMap (env : Nat → RepoEnv) (sep : String)
    (violations_data : List String) : List (String × String) :=
  buildRepoUserMapFrom env sep 0 violations_data []

/-! ### C1: the two-hop enrichment chain -/

/-- A permissions-API response whose `groups` dict holds a non-manage group
followed by a `-manage` group (mixed case, to exercise the case-insensitive
suffix match). -/
def c1Perms : JVal :=
  .jobj [("principals", .jobj [("groups",
    .jobj [("team-readers", .jbool true), ("Team-MANAGE", .jobj []), ("other-manage", .jnum 1)])])]

/-- A group-membership response with two members. -/
def c1Members : JVal := .jobj [("members", .jarr [.jstr "alice", .jstr "bob"])]

/-- Both lookups succeed. -/
def c1Env : RepoEnv := ⟨.ok c1Perms, fun _ => .ok c1Members⟩

/-- Permissions response with no `-manage` group. -/
def c1EnvNoManage : RepoEnv :=
  ⟨.ok (.jobj [("principals", .jobj [("groups", .jobj [("team-readers", .jbool true)])])]),
   fun _ => .ok c1Members⟩

/-- Membership response with an empty members list. -/
def c1EnvEmptyMembers : RepoEnv :=
  ⟨.ok c1Perms, fun _ => .ok (.jobj [("members", .jarr [])])⟩

/-- C1, settled as a code bug in `get_xray_violations.py`: on a successful
two-hop chain that finds the first `-manage` group (case-insensitively) and a
two-element members list, `get_watch_violations.py` and
`get_watch_violations_updated.py` (separator `"|"`) produce `"alice|bob"` as
the claim states, but `get_xray_violations.py` (separator `","`) produces
`"alice,bob"`, contradicting the claim and that function's own docstring
(`{repo_name: 'user1|user2|userN'}`) and the comment `# Join members with '|'`
directly above the join. The no-manage-group and empty-members cases yield
`"NA"` in all scripts, as claimed. -/
theorem c1_join_separator :
    lookupUsers "|" c1Env = "alice|bob"
    ∧ lookupUsers "," c1Env = "alice,bob"
    ∧ lookupUsers "," c1Env ≠ "alice|bob"
    ∧ lookupUsers "|" c1EnvNoManage = "NA"
    ∧ lookupUsers "," c1EnvNoManage = "NA"
    ∧ lookupUsers "|" c1EnvEmptyMembers = "NA"
    ∧ lookupUsers "," c1EnvEmptyMembers = "NA" := by
  refine ⟨rfl, rfl, ?_, rfl, rfl, rfl, rfl⟩
  decide

/-! ### Association-list lemmas for the Python-dict model -/

/-- `repo_user_map[k]` (dict access, first binding — bindings are unique). -/
def alookup (m : List (String × String)) (k : String) : Option String :=
  match m with
  | [] => none
  | (k', v) :: rest => if k' = k then some v else alookup rest k

lemma dictInsert_keys (k v : String) :
    ∀ m : List (String × String), (dictInsert m k v).map Prod.fst =
      if k ∈ m.map Prod.fst then m.map Prod.fst else m.map Prod.fst ++ [k] := by
  intro m
  induction m with
  | nil => simp [dictInsert]
  | cons p rest ih =>
    obtain ⟨k', v'⟩ := p
    by_cases hp : k' = k
    · simp [dictInsert, hp]
    · simp only [dictInsert, if_neg hp, List.map_cons, ih]
      by_cases hk : k ∈ rest.map Prod.fst
      · rw [if_pos hk, if_pos (by simp [hk])]
      · rw [if_neg hk, if_neg (by
          simp only [List.map_cons, List.mem_cons]
          push_neg
          exact ⟨fun h => hp h.symm, hk⟩), List.cons_append]

lemma alookup_dictInsert_self (k v : String) :
    ∀ m : List (String × String), alookup (dictInsert m k v) k = some v := by
  intro m
  induction m with
  | nil => simp [dictInsert, alookup]
  | cons p rest ih =>
    obtain ⟨k', v'⟩ := p
    by_cases hp : k' = k
    · simp [dictInsert, hp, alookup]
    · simp only [dictInsert, if_neg hp, alookup]
      exact ih

lemma alookup_dictInsert_other (k v k' : String) (hk : k' ≠ k) :
    ∀ m : List (String × String), alookup (dictInsert m k v) k' = alookup m k' := by
  intro m
  induction m with
  | nil => simp only [dictInsert, alookup, if_neg (fun h => hk (Eq.symm h))]
  | cons p rest ih =>
    obtain ⟨a, b⟩ := p
    by_cases hp : a = k
    · simp only [dictInsert, if_pos hp, alookup]
      rw [if_neg (fun h => hk h.symm), if_neg (fun h => hk (hp.symm.trans h).symm)]
    · simp only [dictInsert, if_neg hp, alookup]
      by_cases hp' : a = k'
      · rw [if_pos hp', if_pos hp']
      · rw [if_neg hp', if_neg hp']
        exact ih

lemma alookup_isSome_of_mem_keys (k : String) :
    ∀ m : List (String × String), k ∈ m.map Prod.fst → ∃ v, alookup m k = some v := by
  intro m
  induction m with
  | nil => simp
  | cons p rest ih =>
    intro h
    by_cases hp : p.1 = k
    · exact ⟨p.2, by simp [alookup, hp]⟩
    · have : k ∈ rest.map Prod.fst := by
        rcases List.mem_map.mp h with ⟨q, hq, hqk⟩
        rcases List.mem_cons.mp hq with rfl | hq'
        · exact absurd hqk hp
        · exact List.mem_map.mpr ⟨q, hq', hqk⟩
      rcases ih this with ⟨v, hv⟩
      exact ⟨v, by simp [alookup, hp, hv]⟩

lemma nodup_keys_dictInsert (m : List (String × String)) (k v : String)
    (h : (m.map Prod.fst).Nodup) : ((dictInsert m k v).map Prod.fst).Nodup := by
  rw [dictInsert_keys]
  by_cases hk : k ∈ m.map Prod.fst
  · rwa [if_pos hk]
  · rw [if_neg hk]
    simpa using List.Nodup.append h (List.nodup_singleton k) (by simpa using hk)

lemma mem_keys_dictInsert (m : List (String × String)) (k v k' : String) :
    k' ∈ (dictInsert m k v).map Prod.fst ↔ k' ∈ m.map Prod.fst ∨ k' = k := by
  rw [dictInsert_keys]
  by_cases hk : k ∈ m.map Prod.fst
  · rw [if_pos hk]
    constructor
    · exact Or.inl
    · rintro (h | rfl)
      · exact h
      · exact hk
  · rw [if_neg hk]
    simp

/-! ### Lemmas about the `build_repo_user_map` loop -/

lemma buildFrom_keys_mem (env : Nat → RepoEnv) (sep k : String) :
    ∀ (names : List String) (i : Nat) (m : List (String × String)),
      k ∈ (buildRepoUserMapFrom env sep i names m).map Prod.fst ↔
        k ∈ m.map Prod.fst ∨ ∃ r ∈ names, cleanName r = k := by
  intro names
  induction names with
  | nil => simp [buildRepoUserMapFrom]
  | cons r rest ih =>
    intro i m
    simp only [buildRepoUserMapFrom]
    rw [ih, mem_keys_dictInsert]
    simp only [List.mem_cons]
    constructor
    · rintro ((h | rfl) | ⟨r', hr', rfl⟩)
      · exact Or.inl h
      · exact Or.inr ⟨r, Or.inl rfl, rfl⟩
      · exact Or.inr ⟨r', Or.inr hr', rfl⟩
    · rintro (h | ⟨r', (rfl | hr'), rfl⟩)
      · exact Or.inl (Or.inl h)
      · exact Or.inl (Or.inr rfl)
      · exact Or.inr ⟨r', hr', rfl⟩

lemma buildFrom_keys_nodup (env : Nat → RepoEnv) (sep : String) :
    ∀ (names : List String) (i : Nat) (m : List (String × String)),
      (m.map Prod.fst).Nodup → ((buildRepoUserMapFrom env sep i names m).map Prod.fst).Nodup := by
  intro names
  induction names with
  | nil => exact fun _ _ h => h
  | cons r rest ih =>
    intro i m hm
    exact ih (i + 1) _ (nodup_keys_dictInsert _ _ _ hm)

lemma buildFrom_alookup_of_forall_ne (env : Nat → RepoEnv) (sep k : String) :
    ∀ (names : List String) (i : Nat) (m : List (String × String)),
      (∀ r ∈ names, cleanName r ≠ k) →
      alookup (buildRepoUserMapFrom env sep i names m) k = alookup m k := by
  intro names
  induction names with
  | nil => intro i m _; rfl
  | cons r rest ih =>
    intro i m h
    simp only [buildRepoUserMapFrom]
    rw [ih (i + 1) _ (fun r' hr' => h r' (List.mem_cons_of_mem r hr')),
      alookup_dictInsert_other _ _ _ (fun hk => h r (List.mem_cons_self r rest) hk.symm)]

lemma buildFrom_alookup_last (env : Nat → RepoEnv) (sep : String) :
    ∀ (pre : List String) (r : String) (post : List String) (i : Nat)
      (m : List (String × String)),
      (∀ r' ∈ post, cleanName r' ≠ cleanName r) →
      alookup (buildRepoUserMapFrom env sep i (pre ++ r :: post) m) (cleanName r) =
        some (lookupUsers sep (env (i + pre.length))) := by
  intro pre
  induction pre with
  | nil =>
    intro r post i m hpost
    simp only [List.nil_append, buildRepoUserMapFrom, List.length_nil, Nat.add_zero]
    rw [buildFrom_alookup_of_forall_ne env sep _ post (i + 1) _ hpost,
      alookup_dictInsert_self]
  | cons p pre' ih =>
    intro r post i m hpost
    simp only [List.cons_append, buildRepoUserMapFrom, List.length_cons, List.append_eq]
    rw [ih r post (i + 1) _ hpost]
    have : i + 1 + pre'.length = i + (pre'.length + 1) := by omega
    rw [this]

lemma buildFrom_indep (env1 env2 : Nat → RepoEnv) (sep K : String) :
    ∀ (names : List String) (i : Nat) (m1 m2 : List (String × String)),
      m1.map Prod.fst = m2.map Prod.fst →
      (∀ k, k ≠ K → alookup m1 k = alookup m2 k) →
      (∀ idx, (h : idx < names.length) → cleanName names[idx] ≠ K →
        env1 (i + idx) = env2 (i + idx)) →
      ∀ k, k ≠ K →
        alookup (buildRepoUserMapFrom env1 sep i names m1) k =
          alookup (buildRepoUserMapFrom env2 sep i names m2) k := by
  intro names
  induction names with
  | nil =>
    intro i m1 m2 _ hlk _ k hk
    exact hlk k hk
  | cons r rest ih =>
    intro i m1 m2 hkeys hlk henv k hk
    simp only [buildRepoUserMapFrom]
    refine ih (i + 1) _ _ ?_ ?_ ?_ k hk
    · rw [dictInsert_keys, dictInsert_keys, hkeys]
    · intro k' hk'
      by_cases hkr : k' = cleanName r
      · subst hkr
        rw [alookup_dictInsert_self, alookup_dictInsert_self]
        have henv0 : env1 i = env2 i := by
          have := henv 0 (by simp) (by simpa using hk')
          simpa using this
        rw [henv0]
      · rw [alookup_dictInsert_other _ _ _ hkr, alookup_dictInsert_other _ _ _ hkr]
        exact hlk k' hk'
    · intro idx h hne
      have := henv (idx + 1) (by simpa using Nat.succ_lt_succ h) (by simpa using hne)
      have harith : i + 1 + idx = i + (idx + 1) := by omega
      rw [harith]
      exact this

/-! ### C2: per-repository independent failure handling -/

/-- C2: `build_repo_user_map` covers every (cleaned) input name; when the
lookups of iteration `j` raise and every other iteration's HTTP outcomes are
unchanged, the failing repository's entry is `"NA"` and every other key's
entry is exactly what it is in the failure-free run. Names are assumed to
clean to pairwise-distinct keys, which is how the function is called (on the
deduplicated repository-name column). -/
theorem c2_per_repo_failure_isolation
    (env1 env2 : Nat → RepoEnv) (sep : String) (names : List String)
    (j : Nat) (hj : j < names.length)
    (hnd : (names.map cleanName).Nodup)
    (hagree : ∀ i, i ≠ j → env1 i = env2 i)
    (er : PyErr) (hfail : lookupUsersE sep (env1 j) = .error er) :
    (∀ r ∈ names, ∃ v, alookup (buildRepoUserMap env1 sep names) (cleanName r) = some v)
    ∧ alookup (buildRepoUserMap env1 sep names) (cleanName names[j]) = some "NA"
    ∧ ∀ k, k ≠ cleanName names[j] →
        alookup (buildRepoUserMap env1 sep names) k =
          alookup (buildRepoUserMap env2 sep names) k := by
  refine ⟨?_, ?_, ?_⟩
  · intro r hr
    apply alookup_isSome_of_mem_keys
    exact (buildFrom_keys_mem env1 sep (cleanName r) names 0 []).mpr
      (Or.inr ⟨r, hr, rfl⟩)
  · have hsplit : names = names.take j ++ names[j] :: names.drop (j + 1) := by
      rw [← List.drop_eq_getElem_cons hj, List.take_append_drop]
    have hpost : ∀ r' ∈ names.drop (j + 1), cleanName r' ≠ cleanName names[j] := by
      intro r' hr'
      rcases List.mem_iff_getElem.mp hr' with ⟨a, ha, rfl⟩
      rw [List.getElem_drop]
      intro hEq
      have hlt : j + 1 + a < names.length := by
        have := List.length_drop (j + 1) names ▸ ha
        omega
      have hb1 : j + 1 + a < (names.map cleanName).length := by simpa using hlt
      have hb2 : j < (names.map cleanName).length := by simpa using hj
      have h1 : (names.map cleanName)[j + 1 + a] = (names.map cleanName)[j] := by
        rw [List.getElem_map, List.getElem_map]
        exact hEq
      have := (List.Nodup.getElem_inj_iff hnd).mp h1
      omega
    have hlast := buildFrom_alookup_last env1 sep (names.take j) names[j]
      (names.drop (j + 1)) 0 [] hpost
    rw [← hsplit] at hlast
    have hlen : (names.take j).length = j := by
      rw [List.length_take]
      omega
    rw [show buildRepoUserMap env1 sep names = buildRepoUserMapFrom env1 sep 0 names []
      from rfl, hlast, hlen]
    simp only [Nat.zero_add]
    unfold lookupUsers
    rw [hfail]
  · intro k hk
    show alookup (buildRepoUserMapFrom env1 sep 0 names []) k =
      alookup (buildRepoUserMapFrom env2 sep 0 names []) k
    refine buildFrom_indep env1 env2 sep (cleanName names[j]) names 0 [] [] rfl
      (fun _ _ => rfl) ?_ k hk
    intro idx h hne
    simp only [Nat.zero_add]
    refine hagree idx (fun hij => hne ?_)
    subst hij
    rfl

/-- An iteration whose first HTTP call raises. -/
def c2FailEnv : RepoEnv := ⟨.error .httpError, fun _ => .error .httpError⟩

/-- An iteration whose lookups both succeed. -/
def c2OkEnv : RepoEnv :=
  ⟨.ok (.jobj [("principals", .jobj [("groups", .jobj [("g-manage", .jnull)])])]),
   fun _ => .ok (.jobj [("members", .jarr [.jstr "u1"])])⟩

/-- Run in which iteration 0 fails. -/
def c2Env1 : Nat → RepoEnv := fun i => if i = 0 then c2FailEnv else c2OkEnv

/-- The same run without the failure. -/
def c2Env2 : Nat → RepoEnv := fun _ => c2OkEnv

/-- Witness for C2 at a concrete two-repository input whose first lookup
raises an HTTP error. -/
theorem c2_per_repo_failure_isolation_witness :
    (0 < (["repoA", "repoB"] : List String).length)
    ∧ ((["repoA", "repoB"].map cleanName).Nodup)
    ∧ lookupUsersE "|" (c2Env1 0) = .error .httpError
    ∧ (∃ v, alookup (buildRepoUserMap c2Env1 "|" ["repoA", "repoB"]) (cleanName "repoB")
        = some v)
    ∧ alookup (buildRepoUserMap c2Env1 "|" ["repoA", "repoB"]) (cleanName "repoA")
        = some "NA"
    ∧ alookup (buildRepoUserMap c2Env1 "|" ["repoA", "repoB"]) "repoB" =
        alookup (buildRepoUserMap c2Env2 "|" ["repoA", "repoB"]) "repoB" := by
  have h := c2_per_repo_failure_isolation c2Env1 c2Env2 "|" ["repoA", "repoB"] 0 (by decide)
    (by decide) (fun i hi => by simp [c2Env1, c2Env2, hi]) .httpError rfl
  exact ⟨by decide, by decide, rfl, h.1 "repoB" (by decide), h.2.1,
    h.2.2 "repoB" (by decide)⟩

/-! ### C6: deduplication before the two-hop lookups -/

/-- `violations_df['RepoNameOfImpactedArtifact'].unique().tolist()`: the
distinct values of the column, first occurrence first. -/
def uniqueList (l : List String) : List String :=
  l.foldl (fun acc x => if x ∈ acc then acc else acc ++ [x]) []

lemma uniqueList_fold_aux :
    ∀ (l acc : List String), acc.Nodup →
      (l.foldl (fun acc x => if x ∈ acc then acc else acc ++ [x]) acc).Nodup
      ∧ ∀ x, x ∈ l.foldl (fun acc x => if x ∈ acc then acc else acc ++ [x]) acc ↔
          x ∈ acc ∨ x ∈ l := by
  intro l
  induction l with
  | nil => exact fun acc h => ⟨h, fun x => by simp⟩
  | cons y rest ih =>
    intro acc hacc
    have hstep : ((if y ∈ acc then acc else acc ++ [y]) : List String).Nodup := by
      by_cases hy : y ∈ acc
      · rwa [if_pos hy]
      · rw [if_neg hy]
        simpa using List.Nodup.append hacc (List.nodup_singleton y) (by simpa using hy)
    have hstepmem : ∀ x, x ∈ (if y ∈ acc then acc else acc ++ [y]) ↔ x ∈ acc ∨ x = y := by
      intro x
      by_cases hy : y ∈ acc
      · rw [if_pos hy]
        constructor
        · exact Or.inl
        · rintro (h | rfl)
          · exact h
          · exact hy
      · rw [if_neg hy]
        simp
    rcases ih _ hstep with ⟨hn, hm⟩
    refine ⟨hn, fun x => ?_⟩
    rw [List.foldl_cons, hm x, hstepmem x, List.mem_cons]
    tauto

lemma uniqueList_nodup (l : List String) : (uniqueList l).Nodup :=
  (uniqueList_fold_aux l [] List.nodup_nil).1

lemma uniqueList_mem (l : List String) (x : String) : x ∈ uniqueList l ↔ x ∈ l := by
  rw [uniqueList, (uniqueList_fold_aux l [] List.nodup_nil).2 x]
  simp

/-- C6: the list handed to `build_repo_user_map` is the deduplicated
repository-name column (each distinct name exactly once, so the two-hop
lookup runs at most once per distinct name), and the resulting map has
exactly one entry per distinct cleaned name. -/
theorem c6_unique_repos_single_entry (env : Nat → RepoEnv) (sep : String)
    (column : List String) :
    (uniqueList column).Nodup
    ∧ (∀ x, x ∈ uniqueList column ↔ x ∈ column)
    ∧ ((buildRepoUserMap env sep (uniqueList column)).map Prod.fst).Nodup
    ∧ (∀ k, k ∈ (buildRepoUserMap env sep (uniqueList column)).map Prod.fst ↔
        ∃ r ∈ column, cleanName r = k) := by
  refine ⟨uniqueList_nodup column, uniqueList_mem column, ?_, ?_⟩
  · exact buildFrom_keys_nodup env sep (uniqueList column) 0 [] (by simp)
  · intro k
    rw [show buildRepoUserMap env sep (uniqueList column) =
      buildRepoUserMapFrom env sep 0 (uniqueList column) [] from rfl,
      buildFrom_keys_mem]
    simp only [List.map_nil, List.not_mem_nil, false_or]
    constructor
    · rintro ⟨r, hr, rfl⟩
      exact ⟨r, (uniqueList_mem column r).mp hr, rfl⟩
    · rintro ⟨r, hr, rfl⟩
      exact ⟨r, (uniqueList_mem column r).mpr hr, rfl⟩

/-! ### C10: the `-cache` suffix handling -/

/-- An environment whose lookups all fail (the map keys do not depend on it). -/
def c10Env : Nat → RepoEnv := fun _ => ⟨.error .httpError, fun _ => .error .httpError⟩

/-- C10: when the cleaned name ends in `-cache` (case-insensitively) the name
queried against the permissions API is the cleaned name with every occurrence
of the exact substring `-cache` removed (`str.replace` removes all
occurrences, as `"my-cache-repo-cache" ↦ "my-repo"` shows — not just the
trailing one); otherwise the name is used verbatim (even when it contains
`-cache` in the middle); and the key stored in the returned map is always the
original cleaned name, not the rewritten one. -/
theorem c10_cache_rewrite (raw : String) (env : Nat → RepoEnv) (sep : String) :
    (∀ n : String, chEndsWith (lowerStr n) "-cache" = true →
      reponOf n = pyReplace n "-cache" "")
    ∧ (∀ n : String, chEndsWith (lowerStr n) "-cache" = false → reponOf n = n)
    ∧ (buildRepoUserMap env sep [raw]).map Prod.fst = [cleanName raw]
    ∧ reponOf "my-cache-repo-cache" = "my-repo"
    ∧ reponOf "my-cache-repo" = "my-cache-repo"
    ∧ reponOf "Repo-CACHE" = "Repo-CACHE" := by
  refine ⟨?_, ?_, rfl, by decide, by decide, by decide⟩
  · intro n h
    rw [reponOf, if_pos h]
  · intro n h
    rw [reponOf, if_neg (by simp [h])]

/-- Witness for C10 on a raw name carrying quotes, whitespace and the
`-cache` suffix. -/
theorem c10_cache_rewrite_witness :
    chEndsWith (lowerStr "x-cache") "-cache" = true
    ∧ reponOf "x-cache" = pyReplace "x-cache" "-cache" ""
    ∧ chEndsWith (lowerStr "plain-repo") "-cache" = false
    ∧ reponOf "plain-repo" = "plain-repo"
    ∧ (buildRepoUserMap c10Env "|" [" \"foo-cache\" "]).map Prod.fst = ["foo-cache"]
    ∧ reponOf "my-cache-repo-cache" = "my-repo" := by
  have h := c10_cache_rewrite " \"foo-cache\" " c10Env "|"
  exact ⟨by decide, h.1 "x-cache" (by decide), by decide,
    h.2.1 "plain-repo" (by decide), h.2.2.1, h.2.2.2.1⟩

/-! ### C7: the enrichment merge is a left join -/

/-- `pd.merge(violations_df, map_df, on='RepoNameOfImpactedArtifact',
how='left')` followed by `final_df[user_col].fillna('NA')`, on rows modelled
as cell lists whose column 3 is `RepoNameOfImpactedArtifact`: each left row is
paired with every map binding of equal key, and a row with no match keeps its
cells and gets the filled-in `"NA"`. -/
def pandasLeftJoin (rows : List (List String)) (m : List (String × String)) :
    List (List String) :=
  rows.flatMap fun r =>
    match m.filter (fun p => p.1 = r.getD 3 "") with
    | [] => [r ++ ["NA"]]
    | ms => ms.map fun p => r ++ [p.2]

lemma filter_key_nil (k : String) :
    ∀ m : List (String × String), k ∉ m.map Prod.fst →
      m.filter (fun p => p.1 = k) = [] := by
  intro m
  induction m with
  | nil => intro _; rfl
  | cons p rest ih =>
    intro h
    have hp : ¬p.1 = k := fun hk => h (List.mem_map.mpr ⟨p, List.mem_cons_self p rest, hk⟩)
    rw [List.filter_cons_of_neg (by simpa using hp)]
    refine ih (fun hk => h ?_)
    rcases List.mem_map.mp hk with ⟨q, hq, hqk⟩
    exact List.mem_map.mpr ⟨q, List.mem_cons_of_mem p hq, hqk⟩

lemma filter_key_of_nodup (k : String) :
    ∀ m : List (String × String), (m.map Prod.fst).Nodup →
      m.filter (fun p => p.1 = k) =
        (match alookup m k with
          | none => []
          | some v => [(k, v)]) := by
  intro m
  induction m with
  | nil => intro _; rfl
  | cons p rest ih =>
    intro hnd
    obtain ⟨a, b⟩ := p
    rw [List.map_cons, List.nodup_cons] at hnd
    by_cases ha : a = k
    · subst ha
      rw [List.filter_cons_of_pos (by simp), alookup]
      rw [if_pos rfl, filter_key_nil a rest hnd.1]
    · rw [List.filter_cons_of_neg (by simpa using ha), alookup, if_neg ha]
      exact ih hnd.2

lemma pandasLeftJoin_of_nodup (m : List (String × String))
    (hnd : (m.map Prod.fst).Nodup) :
    ∀ rows : List (List String),
      pandasLeftJoin rows m =
        rows.map fun r => r ++ [(alookup m (r.getD 3 "")).getD "NA"] := by
  intro rows
  induction rows with
  | nil => rfl
  | cons r rest ih =>
    rw [pandasLeftJoin, List.flatMap_cons, ← pandasLeftJoin, ih, List.map_cons]
    rw [filter_key_of_nodup (r.getD 3 "") m hnd]
    cases h : alookup m (r.getD 3 "") with
    | none => rfl
    | some v => rfl

/-- C7: the enrichment merge onto the map built by `build_repo_user_map` is a
left join keyed on `RepoNameOfImpactedArtifact` (column 3): the final table
has exactly one row per intermediate row, each original row is kept unchanged
as a prefix, exactly one user-assignment cell is appended, and a row whose
repository name has no entry in the map gets `"NA"` there. -/
theorem c7_left_join_enrichment (rows : List (List String)) (env : Nat → RepoEnv)
    (sep : String) (names : List String) :
    pandasLeftJoin rows (buildRepoUserMap env sep names) =
      rows.map fun r =>
        r ++ [(alookup (buildRepoUserMap env sep names) (r.getD 3 "")).getD "NA"] := by
  exact pandasLeftJoin_of_nodup _ (buildFrom_keys_nodup env sep names 0 [] (by simp)) rows

/-! ### C8: removal of the intermediate file -/

/-- The filesystem effects the final phase performs. -/
inductive FileOp where
  | write (name : String)
  | remove (name : String)

/-- Effect of one operation on the set of existing files (kept as a list):
`to_csv` creates the file if absent, `os.remove` deletes it. -/
def applyOp (fs : List String) : FileOp → List String
  | .write n => if n ∈ fs then fs else fs ++ [n]
  | .remove n => fs.filter (fun m => m ≠ n)

def runOps (fs : List String) (ops : List FileOp) : List String := ops.foldl applyOp fs

/-- `CSV_FILE = f"violations_{watch_name}.csv"`. -/
def csvFileName (w : String) : String := "violations_" ++ w ++ ".csv"

/-- `FINAL_OUTPUT_FILE = f"violations_enriched_{watch_name}.csv"`. -/
def finalCsvName (w : String) : String := "violations_enriched_" ++ w ++ ".csv"

/-- `tsv_file = f"violations_{watch_name}.tsv"` in `get_xray_violations.py`. -/
def tsvFileName (w : String) : String := "violations_" ++ w ++ ".tsv"

/-- `FINAL_OUTPUT_FILE = f"violations_enriched_{watch_name}.tsv"` there. -/
def finalTsvName (w : String) : String := "violations_enriched_" ++ w ++ ".tsv"

/-- File operations at the end of `get_xray_watch_violations` in
`get_watch_violations.py` (`final_df.to_csv(FINAL_OUTPUT_FILE, ...)`, then
`if os.path.exists(CSV_FILE): os.remove(CSV_FILE)`) and identically in
`get_watch_violations_updated.py`. -/
def watchFinalizeOps (w : String) : List FileOp :=
  [.write (finalCsvName w), .remove (csvFileName w)]

/-- File operations at the end of `get_xray_watch_violations` in
`get_xray_violations.py`: `final_df.to_csv(FINAL_OUTPUT_FILE, ...)` and
nothing else — that script contains no `os.remove` call. -/
def xrayFinalizeOps (w : String) : List FileOp :=
  [.write (finalTsvName w)]

/-- Counterexample to C8: in `get_xray_violations.py` the intermediate
`violations_<watch>.tsv` is still present after the final enriched file is
written, so it is not true for every script that only the final file
remains. -/
theorem c8_xray_keeps_intermediate :
    tsvFileName "w" ∈ runOps [tsvFileName "w"] (xrayFinalizeOps "w")
    ∧ finalTsvName "w" ∈ runOps [tsvFileName "w"] (xrayFinalizeOps "w")
    ∧ tsvFileName "w" ≠ finalTsvName "w" := by
  decide

lemma csv_name_ne (w : String) : finalCsvName w ≠ csvFileName w := by
  intro h
  have hlen := congrArg String.length h
  rw [finalCsvName, csvFileName, String.length_append, String.length_append,
    String.length_append, String.length_append] at hlen
  have h1 : "violations_enriched_".length = 20 := rfl
  have h2 : "violations_".length = 11 := rfl
  omega

/-- C8 as amended: in `get_watch_violations.py` and
`get_watch_violations_updated.py`, after the final phase the enriched file
exists and the intermediate `violations_<watch>.csv` does not, for every watch
name and every starting filesystem; in `get_xray_violations.py` the final file
exists but the intermediate `.tsv`, if it existed, still exists. -/
theorem c8_intermediate_cleanup (w : String) (fs : List String) :
    finalCsvName w ∈ runOps fs (watchFinalizeOps w)
    ∧ csvFileName w ∉ runOps fs (watchFinalizeOps w)
    ∧ finalTsvName w ∈ runOps fs (xrayFinalizeOps w)
    ∧ (tsvFileName w ∈ fs → tsvFileName w ∈ runOps fs (xrayFinalizeOps w)) := by
  refine ⟨?_, ?_, ?_, ?_⟩
  · show finalCsvName w ∈
      ((if finalCsvName w ∈ fs then fs else fs ++ [finalCsvName w]).filter
        (fun m => m ≠ csvFileName w))
    rw [List.mem_filter]
    constructor
    · by_cases hmem : finalCsvName w ∈ fs
      · rwa [if_pos hmem]
      · rw [if_neg hmem]
        simp
    · simpa using csv_name_ne w
  · show csvFileName w ∉
      ((if finalCsvName w ∈ fs then fs else fs ++ [finalCsvName w]).filter
        (fun m => m ≠ csvFileName w))
    rw [List.mem_filter]
    simp
  · show finalTsvName w ∈ (if finalTsvName w ∈ fs then fs else fs ++ [finalTsvName w])
    by_cases hmem : finalTsvName w ∈ fs
    · rwa [if_pos hmem]
    · rw [if_neg hmem]
      simp
  · intro hmem
    show tsvFileName w ∈ (if finalTsvName w ∈ fs then fs else fs ++ [finalTsvName w])
    by_cases hfin : finalTsvName w ∈ fs
    · rwa [if_pos hfin]
    · rw [if_neg hfin]
      exact List.mem_append_left _ hmem

/-- Witness for the amended C8 at a concrete watch name and filesystem. -/
theorem c8_intermediate_cleanup_witness :
    tsvFileName "w" ∈ ([tsvFileName "w", csvFileName "w"] : List String)
    ∧ finalCsvName "w" ∈ runOps [tsvFileName "w", csvFileName "w"] (watchFinalizeOps "w")
    ∧ csvFileName "w" ∉ runOps [tsvFileName "w", csvFileName "w"] (watchFinalizeOps "w")
    ∧ tsvFileName "w" ∈ runOps [tsvFileName "w", csvFileName "w"] (xrayFinalizeOps "w") := by
  have h := c8_intermediate_cleanup "w" [tsvFileName "w", csvFileName "w"]
  exact ⟨by decide, h.1, h.2.1, h.2.2.2 (by decide)⟩

/-! ### C9: the sequence of requested offsets -/

/-- The pagination offsets sent to the violations API over a full run: the
pre-loop first fetch uses offset `0`; inside `for i in range(total_pages)`
iteration `i = 0` reuses that response, and every iteration `i ≥ 1` requests
`offset_page_number = i + 1`. -/
def requestedOffsets (total_pages : Nat) : List Nat :=
  0 :: ((List.range total_pages).filter (fun i => i ≠ 0)).map (fun i => i + 1)

lemma range'_filter_ne_zero (s : Nat) (hs : 1 ≤ s) :
    ∀ k : Nat, (List.range' s k).filter (fun i => i ≠ 0) = List.range' s k := by
  intro k
  refine List.filter_eq_self.mpr fun a ha => ?_
  have := List.mem_range'_1.mp ha
  simp only [ne_eq, decide_eq_true_eq]
  omega

lemma map_succ_range' : ∀ (k s : Nat),
    (List.range' s k).map (fun i => i + 1) = List.range' (s + 1) k := by
  intro k
  induction k with
  | zero => intro s; rfl
  | succ k ih =>
    intro s
    rw [List.range'_succ, List.range'_succ, List.map_cons, ih (s + 1)]

lemma requestedOffsets_eq (tp : Nat) (h : 2 ≤ tp) :
    requestedOffsets tp = 0 :: 2 :: List.range' 3 (tp - 2) := by
  obtain ⟨k, rfl⟩ : ∃ k, tp = k + 2 := ⟨tp - 2, by omega⟩
  rw [requestedOffsets, List.range_eq_range']
  have h1 : List.range' 0 (k + 2) = 0 :: 1 :: List.range' 2 k := by
    rw [List.range'_succ, List.range'_succ]
  rw [h1]
  rw [List.filter_cons_of_neg (by simp), List.filter_cons_of_pos (by simp),
    range'_filter_ne_zero 2 (by omega) k, List.map_cons, map_succ_range' k 2]
  simp

/-- C9: with more than one page, the offsets requested are `0` followed by
`2, 3, ..., total_pages`; offset `1` is never requested, and the request
sequence is not the contiguous sequence of any of the natural
interpretations: 0-based page numbers (`0..total_pages-1`), 1-based page
numbers (`1..total_pages`), or record offsets (`0, 100, ...`). -/
theorem c9_offset_sequence (tp : Nat) (h : 2 ≤ tp) :
    requestedOffsets tp = 0 :: 2 :: List.range' 3 (tp - 2)
    ∧ 1 ∉ requestedOffsets tp
    ∧ requestedOffsets tp ≠ List.range tp
    ∧ requestedOffsets tp ≠ (List.range tp).map (fun i => i + 1)
    ∧ requestedOffsets tp ≠ (List.range tp).map (fun i => i * 100) := by
  obtain ⟨k, rfl⟩ : ∃ k, tp = k + 2 := ⟨tp - 2, by omega⟩
  have heq := requestedOffsets_eq (k + 2) (by omega)
  have h1 : List.range (k + 2) = 0 :: 1 :: List.range' 2 k := by
    rw [List.range_eq_range', List.range'_succ, List.range'_succ]
  refine ⟨heq, ?_, ?_, ?_, ?_⟩
  · rw [heq]
    simp only [List.mem_cons, List.mem_range'_1]
    omega
  · rw [heq, h1]
    intro hcon
    have := (List.cons.injEq _ _ _ _ ▸ hcon)
    simp at this
  · rw [heq, h1]
    intro hcon
    simp at hcon
  · rw [heq, h1]
    intro hcon
    simp at hcon

/-- Witness for C9 at `total_pages = 3`. -/
theorem c9_offset_sequence_witness :
    2 ≤ 3
    ∧ (requestedOffsets 3 = 0 :: 2 :: List.range' 3 (3 - 2)
      ∧ 1 ∉ requestedOffsets 3
      ∧ requestedOffsets 3 ≠ List.range 3
      ∧ requestedOffsets 3 ≠ (List.range 3).map (fun i => i + 1)
      ∧ requestedOffsets 3 ≠ (List.range 3).map (fun i => i * 100)) :=
  ⟨by decide, c9_offset_sequence 3 (by decide)⟩

/-! ### C3: page-count computation and full pagination -/

/-- `total_pages = (total_violations + limit - 1) // limit`. -/
def totalPages (total_violations limit : Nat) : Nat :=
  (total_violations + limit - 1) / limit

/-- The list a page's row-writing loop iterates over:
`json_data.get('violations', [])` (non-list values yield nothing to iterate,
and the well-formed responses the pagination claims range over are objects
with list-valued `violations`). -/
def violationsOf (page : JVal) : List JVal :=
  match page with
  | .jobj fs =>
    match (dictGet fs "violations").getD (.jarr []) with
    | .jarr xs => xs
    | _ => []
  | _ => []

/-- `array_length`, the per-page processed count returned by the row writer. -/
def pageCount (page : JVal) : Nat := (violationsOf page).length

/-- Truthiness of a fetch outcome (`if not page_data: break`): `none` models
the `return None` taken on a request exception, and a fetched falsy JSON value
also breaks. -/
def truthyFetch : Option JVal → Bool
  | none => false
  | some pd => pyTruthy pd

/-- The processed count of loop iteration `i`: the cached first page at
`i = 0`, the page fetched at offset `i + 1` otherwise. -/
def pageCountAt (fetch : Nat → Option JVal) (firstPage : JVal) (i : Nat) : Nat :=
  if i = 0 then pageCount firstPage
  else match fetch (i + 1) with
    | some pd => pageCount pd
    | none => 0

/-- The page data iteration `i` works on, or `none` when the loop `break`s
before writing: iteration `0` reuses `first_page_data` with no truthiness
check; a later iteration fetches offset `i + 1` and breaks on a falsy
response (`if not page_data: break`). -/
def pageDataAt (fetch : Nat → Option JVal) (firstPage : JVal) (i : Nat) : Option JVal :=
  if i = 0 then some firstPage
  else
    match fetch (i + 1) with
    | none => none
    | some pd => if pyTruthy pd then some pd else none

/-- The `for i in range(total_pages)` loop of `get_xray_watch_violations`,
returning (pages processed by the row writer, total violations written).
After writing a page the loop breaks when a non-final page produced `0`
rows. -/
def pagesLoop (fetch : Nat → Option JVal) (tp : Nat) (firstPage : JVal) :
    List Nat → Nat × Nat
  | [] => (0, 0)
  | i :: rest =>
    match pageDataAt fetch firstPage i with
    | none => (0, 0)
    | some pd =>
      if pageCount pd = 0 ∧ i < tp - 1 then (1, pageCount pd)
      else
        let r := pagesLoop fetch tp firstPage rest
        (r.1 + 1, r.2 + pageCount pd)

/-- The whole pagination phase for a first page reporting `total_violations`
and page size `limit`. -/
def runPagination (fetch : Nat → Option JVal) (firstPage : JVal)
    (total_violations limit : Nat) : Nat × Nat :=
  pagesLoop fetch (totalPages total_violations limit) firstPage
    (List.range (totalPages total_violations limit))

lemma pagesLoop_all_processed (fetch : Nat → Option JVal) (tp : Nat) (firstPage : JVal) :
    ∀ l : List Nat,
      (∀ i ∈ l, (i = 0 ∨ truthyFetch (fetch (i + 1)) = true)
        ∧ (pageCountAt fetch firstPage i ≠ 0 ∨ ¬i < tp - 1)) →
      (pagesLoop fetch tp firstPage l).1 = l.length := by
  intro l
  induction l with
  | nil => intro _; rfl
  | cons i rest ih =>
    intro h
    obtain ⟨hpd, hcnt⟩ := h i (List.mem_cons_self i rest)
    have hrest := fun i' hi' => h i' (List.mem_cons_of_mem i hi')
    have hdata : ∃ pd, pageDataAt fetch firstPage i = some pd
        ∧ pageCount pd = pageCountAt fetch firstPage i := by
      by_cases hi : i = 0
      · exact ⟨firstPage, by simp [pageDataAt, hi], by simp [pageCountAt, hi]⟩
      · rcases hpd with hpd | hpd
        · exact absurd hpd hi
        · cases hfetch : fetch (i + 1) with
          | none =>
            rw [hfetch] at hpd
            simp [truthyFetch] at hpd
          | some pd =>
            rw [hfetch] at hpd
            simp only [truthyFetch] at hpd
            exact ⟨pd, by simp [pageDataAt, hi, hfetch, hpd],
              by simp [pageCountAt, hi, hfetch]⟩
    obtain ⟨pd, hpdeq, hpc⟩ := hdata
    have hn : ¬(pageCount pd = 0 ∧ i < tp - 1) := by
      rcases hcnt with hc | hc
      · rw [← hpc] at hc
        exact fun hand => hc hand.1
      · exact fun hand => hc hand.2
    simp only [pagesLoop, hpdeq]
    rw [if_neg hn]
    show (pagesLoop fetch tp firstPage rest).1 + 1 = (i :: rest).length
    rw [ih hrest, List.length_cons]

/-- C3: with `limit = 100` the computed `total_pages` is the ceiling of
`N / 100` (characterised by the two inequalities), and when every later page
fetch returns a truthy response and no non-final page is empty, the loop
processes exactly `total_pages` pages. -/
theorem c3_pagination (N : Nat) (hN : 0 < N) (fetch : Nat → Option JVal)
    (firstPage : JVal)
    (hfetch : ∀ i, 0 < i → i < totalPages N 100 → truthyFetch (fetch (i + 1)) = true)
    (hne : ∀ i, i < totalPages N 100 - 1 → pageCountAt fetch firstPage i ≠ 0) :
    totalPages N 100 = (N + 100 - 1) / 100
    ∧ N ≤ totalPages N 100 * 100
    ∧ 100 * (totalPages N 100 - 1) < N
    ∧ (runPagination fetch firstPage N 100).1 = totalPages N 100 := by
  refine ⟨rfl, ?_, ?_, ?_⟩
  · rw [totalPages]
    omega
  · rw [totalPages]
    omega
  · rw [runPagination]
    rw [pagesLoop_all_processed fetch (totalPages N 100) firstPage (List.range (totalPages N 100)) ?_]
    · exact List.length_range (totalPages N 100)
    · intro i hi
      have hilt : i < totalPages N 100 := List.mem_range.mp hi
      constructor
      · by_cases hi0 : i = 0
        · exact Or.inl hi0
        · exact Or.inr (hfetch i (Nat.pos_of_ne_zero hi0) hilt)
      · by_cases hfin : i < totalPages N 100 - 1
        · exact Or.inl (hne i hfin)
        · exact Or.inr hfin

/-- A one-violation page. -/
def c3Page : JVal := .jobj [("violations", .jarr [.jobj [("type", .jstr "security")]])]

/-- Every fetched offset returns that page. -/
def c3Fetch : Nat → Option JVal := fun _ => some c3Page

/-- Witness for C3 at `N = 150` (`total_pages = 2`). -/
theorem c3_pagination_witness :
    (0 < 150)
    ∧ truthyFetch (c3Fetch 2) = true
    ∧ pageCountAt c3Fetch c3Page 0 ≠ 0
    ∧ (totalPages 150 100 = (150 + 100 - 1) / 100
      ∧ 150 ≤ totalPages 150 100 * 100
      ∧ 100 * (totalPages 150 100 - 1) < 150
      ∧ (runPagination c3Fetch c3Page 150 100).1 = totalPages 150 100) := by
  refine ⟨by decide, rfl, by decide, ?_⟩
  exact c3_pagination 150 (by decide) c3Fetch c3Page
    (fun i h1 h2 => rfl)
    (fun i hlt => by
      have : i = 0 := by
        rw [totalPages] at hlt
        omega
      subst this
      decide)

/-! ### C5: output columns -/

/-- The `header` list of `get_xray_watch_violations` in
`get_watch_violations.py`. -/
def headerWatch : List String :=
  ["Type", "WatchName", "Severity", "RepoNameOfImpactedArtifact", "ImpactedArtifacts",
   "Vulnerability_Id", "Issue_ID", "Infected_Components", "Infected_Versions",
   "Fixed_Versions", "Description"]

/-- `FINAL_COLUMN_ORDER = header + ['User_Assignment']` there (the merge
output is reindexed to it). -/
def finalHeaderWatch : List String := headerWatch ++ ["User_Assignment"]

/-- The `header` list in `get_watch_violations_updated.py`. -/
def headerUpdated : List String :=
  ["Type", "WatchName", "Severity", "RepoNameOfImpactedArtifact", "ImpactedArtifacts",
   "CVEID", "CVSSV3", "InfectedComponents", "InfectedVersions", "FixedVersions",
   "Description", "JFrogResearchSummary", "JFrogResearchDetails",
   "JFrogResearchRemediation"]

/-- The merge appends the `Users` column after the original columns there. -/
def finalHeaderUpdated : List String := headerUpdated ++ ["Users"]

/-- The `header` list in `get_xray_violations.py`. -/
def headerXray : List String :=
  ["Type", "WatchName", "Severity", "RepoNameOfImpactedArtifact", "ImpactedArtifacts",
   "Vulnerability_Id", "Issue_ID", "Description"]

/-- The merge appends `User_Assignment` after the original columns there. -/
def finalHeaderXray : List String := headerXray ++ ["User_Assignment"]

/-- The column layout asserted by C5, following the claim's words: the fixed
eleven-column prefix (with the stated alternatives for the CVE and CVSS/issue
columns), optionally the three research columns, plus one appended
user-assignment column. -/
def c5ClaimedColumns (h : List String) : Prop :=
  ∃ (cve cvss : String) (opt : List String) (user : String),
    (cve = "CVEID" ∨ cve = "Vulnerability_Id")
    ∧ (cvss = "CVSSV3" ∨ cvss = "Issue_ID")
    ∧ (opt = []
        ∨ opt = ["JFrogResearchSummary", "JFrogResearchDetails", "JFrogResearchRemediation"])
    ∧ h = ["Type", "WatchName", "Severity", "RepoNameOfImpactedArtifact",
        "ImpactedArtifacts", cve, cvss, "InfectedComponents", "InfectedVersions",
        "FixedVersions", "Description"] ++ opt ++ [user]

/-- Counterexample to C5: the columns written by `get_xray_violations.py`
contain no infected/fixed-version columns at all (9 columns, not 12 or 15),
and `get_watch_violations.py` spells them `Infected_Components`,
`Infected_Versions`, `Fixed_Versions`, not as the claim states. -/
theorem c5_headers_counterexample :
    ¬c5ClaimedColumns finalHeaderXray ∧ ¬c5ClaimedColumns finalHeaderWatch := by
  constructor
  · rintro ⟨cve, cvss, opt, user, _, _, hopt, heq⟩
    have hlen := congrArg List.length heq
    rcases hopt with rfl | rfl <;> simp [finalHeaderXray, headerXray] at hlen
  · rintro ⟨cve, cvss, opt, user, _, _, hopt, heq⟩
    rcases hopt with rfl | rfl
    · simp only [finalHeaderWatch, headerWatch, List.append_nil, List.cons_append,
        List.nil_append, List.cons.injEq] at heq
      obtain ⟨_, _, _, _, _, _, _, h8, _⟩ := heq
      exact absurd h8 (by decide)
    · have hlen := congrArg List.length heq
      simp [finalHeaderWatch, headerWatch] at hlen

/-- C5 as amended: `get_watch_violations_updated.py` produces exactly the
claimed layout (`CVEID`, `CVSSV3`, research columns, `Users` appended);
`get_watch_violations.py` produces the eleven-column variant with the
infected/fixed columns spelled `Infected_Components`, `Infected_Versions`,
`Fixed_Versions` and `User_Assignment` appended; `get_xray_violations.py`
omits the infected/fixed columns entirely. -/
theorem c5_output_columns :
    c5ClaimedColumns finalHeaderUpdated
    ∧ finalHeaderWatch = ["Type", "WatchName", "Severity",
        "RepoNameOfImpactedArtifact", "ImpactedArtifacts", "Vulnerability_Id",
        "Issue_ID", "Infected_Components", "Infected_Versions", "Fixed_Versions",
        "Description", "User_Assignment"]
    ∧ finalHeaderXray = ["Type", "WatchName", "Severity",
        "RepoNameOfImpactedArtifact", "ImpactedArtifacts", "Vulnerability_Id",
        "Issue_ID", "Description", "User_Assignment"] :=
  ⟨⟨"CVEID", "CVSSV3",
    ["JFrogResearchSummary", "JFrogResearchDetails", "JFrogResearchRemediation"],
    "Users", Or.inl rfl, Or.inl rfl, Or.inr rfl, rfl⟩, rfl, rfl⟩

/-! ### C4: defensive row writing -/

/-- `impacted_artifact.split('/')[1]`, used under the guard
`'/' in impacted_artifact` (the guard guarantees at least two parts). -/
def part1 (s : String) : String := (splitChar '/' s).getD 1 ""

/-- `raw_cvss.split('/')[0]` (`split` always yields at least one part). -/
def part0 (s : String) : String := (splitChar '/' s).getD 0 ""

/-- `applicability_details[0].get('vulnerability_id') if applicability_details
and isinstance(applicability_details[0], dict) else 'N/A'` — the indexing
happens inside the short-circuited condition, so it only runs on truthy
values. -/
def adVulnId (applicability_details : JVal) : Except PyErr JVal :=
  if pyTruthy applicability_details then
    match pyIndex0 applicability_details with
    | .error e => .error e
    | .ok first =>
      match first with
      | .jobj fs => .ok ((dictGet fs "vulnerability_id").getD .jnull)
      | _ => .ok (.jstr "N/A")
  else .ok (.jstr "N/A")

/-- One row of `write_page_to_csv` in `get_watch_violations.py` (the value
written for each cell; `csv.writer` stringifies them). `Except.error` is an
uncaught exception escaping the function. -/
def rowV1 (violation : List (String × JVal)) : Except PyErr (List JVal) :=
  match pyIndex0 ((dictGet violation "impacted_artifacts").getD (.jarr [.jnull])) with
  | .error e => .error e
  | .ok impacted_artifact =>
    let repo_name : JVal :=
      match impacted_artifact with
      | .jstr s => if pyContains s "/" then .jstr (part1 s) else .jnull
      | _ => .jnull
    match adVulnId ((dictGet violation "applicability_details").getD (.jarr [.jobj []])) with
    | .error e => .error e
    | .ok vulnerability_id =>
      match pyJoin "|" ((dictGet violation "fix_versions").getD (.jarr [])) with
      | .error e => .error e
      | .ok fixed_version_list =>
        match pyJoin "|" ((dictGet violation "infected_components").getD (.jarr [])) with
        | .error e => .error e
        | .ok infected_components =>
          match pyJoin "|" ((dictGet violation "infected_versions").getD (.jarr [])) with
          | .error e => .error e
          | .ok infected_versions =>
            .ok [(dictGet violation "type").getD .jnull,
                 (dictGet violation "watch_name").getD .jnull,
                 (dictGet violation "severity").getD .jnull,
                 repo_name, impacted_artifact, vulnerability_id,
                 (dictGet violation "issue_id").getD .jnull,
                 .jstr infected_components, .jstr infected_versions,
                 .jstr fixed_version_list,
                 (dictGet violation "description").getD .jnull]

/-- One row of `process_page_to_tsv` in `get_xray_violations.py`. -/
def rowXray (violation : List (String × JVal)) : Except PyErr (List JVal) :=
  match pyIndex0 ((dictGet violation "impacted_artifacts").getD (.jarr [.jnull])) with
  | .error e => .error e
  | .ok impacted_artifact =>
    let repo_name : JVal :=
      match impacted_artifact with
      | .jstr s => if pyContains s "/" then .jstr (part1 s) else .jnull
      | _ => .jnull
    match adVulnId ((dictGet violation "applicability_details").getD (.jarr [.jobj []])) with
    | .error e => .error e
    | .ok vulnerability_id =>
      .ok [(dictGet violation "type").getD .jnull,
           (dictGet violation "watch_name").getD .jnull,
           (dictGet violation "severity").getD .jnull,
           repo_name, impacted_artifact, vulnerability_id,
           (dictGet violation "issue_id").getD .jnull,
           (dictGet violation "description").getD .jnull]

/-- `properties.get(k) or "NA"`; an `AttributeError` when `properties` is not
a dict. -/
def propGetOr (properties : JVal) (k : String) : Except PyErr JVal :=
  match properties with
  | .jobj fs => .ok (pyOr ((dictGet fs k).getD .jnull) (.jstr "NA"))
  | _ => .error .attributeError

/-- `raw_cvss.split('/')[0] if '/' in raw_cvss else raw_cvss`; the `in` test
raises `TypeError` on non-strings. -/
def cvssTrim (raw_cvss : JVal) : Except PyErr String :=
  match raw_cvss with
  | .jstr s => .ok (if pyContains s "/" then part0 s else s)
  | _ => .error .typeError

/-- `ext_info = violation.get('extended_information')` followed by the
`isinstance(ext_info, dict) and ext_info` guard and the three
`.get(...) or "NA"` extractions. -/
def researchFields (ext_info : JVal) : String × String × String :=
  match ext_info with
  | .jobj fs =>
    if fs.isEmpty then ("NA", "NA", "NA")
    else (pyStr (pyOr ((dictGet fs "short_description").getD .jnull) (.jstr "NA")),
          pyStr (pyOr ((dictGet fs "full_description").getD .jnull) (.jstr "NA")),
          pyStr (pyOr ((dictGet fs "remediation").getD .jnull) (.jstr "NA")))
  | _ => ("NA", "NA", "NA")

/-- One row of `write_page_to_csv` in `get_watch_violations_updated.py`
(every cell passes through `str(...)`). -/
def rowUpdated (violation : List (String × JVal)) : Except PyErr (List String) :=
  match (if pyTruthy ((dictGet violation "impacted_artifacts").getD (.jarr [])) then
      pyIndex0 ((dictGet violation "impacted_artifacts").getD (.jarr []))
    else Except.ok (.jstr "NA")) with
  | .error e => .error e
  | .ok impacted_artifact =>
    let repo_name : String :=
      match impacted_artifact with
      | .jstr s =>
        if pyContains s "/" then
          if 1 < (splitChar '/' s).length then part1 s else "NA"
        else "NA"
      | _ => "NA"
    match pyJoin "|" ((dictGet violation "fix_versions").getD (.jarr [])) with
    | .error e => .error e
    | .ok fixedJ =>
      match pyJoin "|" ((dictGet violation "infected_components").getD (.jarr [])) with
      | .error e => .error e
      | .ok infCJ =>
        match pyJoin "|" ((dictGet violation "infected_versions").getD (.jarr [])) with
        | .error e => .error e
        | .ok infVJ =>
          match (if pyTruthy ((dictGet violation "properties").getD (.jarr [])) then
              pyIndex0 ((dictGet violation "properties").getD (.jarr []))
            else Except.ok (.jobj [])) with
          | .error e => .error e
          | .ok properties =>
            match propGetOr properties "cve" with
            | .error e => .error e
            | .ok cve_id =>
              match propGetOr properties "cvss_v3" with
              | .error e => .error e
              | .ok raw_cvss =>
                match cvssTrim raw_cvss with
                | .error e => .error e
                | .ok cvss_v3 =>
                  let research :=
                    researchFields ((dictGet violation "extended_information").getD .jnull)
                  .ok [pyStr (pyOr ((dictGet violation "type").getD .jnull) (.jstr "NA")),
                       pyStr (pyOr ((dictGet violation "watch_name").getD .jnull) (.jstr "NA")),
                       pyStr (pyOr ((dictGet violation "severity").getD .jnull) (.jstr "NA")),
                       repo_name, pyStr impacted_artifact, pyStr cve_id, cvss_v3,
                       if infCJ = "" then "NA" else infCJ,
                       if infVJ = "" then "NA" else infVJ,
                       if fixedJ = "" then "NA" else fixedJ,
                       pyStr (pyOr ((dictGet violation "description").getD .jnull) (.jstr "NA")),
                       research.1, research.2.1, research.2.2]

/-! Shape predicates for the degenerate inputs C4 enumerates. -/

def isArrOpt : Option JVal → Bool
  | none => true
  | some (.jarr _) => true
  | some _ => false

def isStrListOpt : Option JVal → Bool
  | none => true
  | some (.jarr xs) => xs.all (fun x => match x with | .jstr _ => true | _ => false)
  | some _ => false

def isAbsentOrEmptyArr : Option JVal → Bool
  | none => true
  | some (.jarr []) => true
  | some _ => false

def isAbsentOrEmptyObj : Option JVal → Bool
  | none => true
  | some (.jobj []) => true
  | some _ => false

def isOk : Except PyErr (List JVal) → Bool
  | .ok _ => true
  | .error _ => false

def isOkS : Except PyErr (List String) → Bool
  | .ok _ => true
  | .error _ => false

lemma asStrList_ok :
    ∀ xs : List JVal,
      (xs.all (fun x => match x with | .jstr _ => true | _ => false)) = true →
      ∃ l, asStrList xs = .ok l := by
  intro xs
  induction xs with
  | nil => exact fun _ => ⟨[], rfl⟩
  | cons x rest ih =>
    intro h
    rw [List.all_cons, Bool.and_eq_true] at h
    obtain ⟨hx, hrest⟩ := h
    obtain ⟨l, hl⟩ := ih hrest
    cases x <;> try exact absurd hx Bool.false_ne_true
    case jstr s => exact ⟨s :: l, by simp only [asStrList, hl]⟩

lemma pyJoin_ok (sep : String) (o : Option JVal) (h : isStrListOpt o = true) :
    ∃ s, pyJoin sep (o.getD (.jarr [])) = .ok s := by
  cases o with
  | none => exact ⟨"", rfl⟩
  | some val =>
    cases val with
    | jarr xs =>
      simp only [isStrListOpt] at h
      obtain ⟨l, hl⟩ := asStrList_ok xs h
      exact ⟨joinSep sep l, by simp only [Option.getD, pyJoin, hl]⟩
    | jnull => simp [isStrListOpt] at h
    | jbool b => simp [isStrListOpt] at h
    | jnum n => simp [isStrListOpt] at h
    | jstr s => simp [isStrListOpt] at h
    | jobj fs => simp [isStrListOpt] at h

lemma pyIndex0_default_ok (o : Option JVal) (h : isArrOpt o = true)
    (hne : o ≠ some (.jarr [])) :
    ∃ x, pyIndex0 (o.getD (.jarr [.jnull])) = .ok x := by
  cases o with
  | none => exact ⟨.jnull, rfl⟩
  | some val =>
    cases val with
    | jarr xs =>
      cases xs with
      | nil => exact absurd rfl hne
      | cons x rest => exact ⟨x, rfl⟩
    | jnull => simp [isArrOpt] at h
    | jbool b => simp [isArrOpt] at h
    | jnum n => simp [isArrOpt] at h
    | jstr s => simp [isArrOpt] at h
    | jobj fs => simp [isArrOpt] at h

lemma adVulnId_ok (o : Option JVal) (h : isArrOpt o = true) :
    ∃ x, adVulnId (o.getD (.jarr [.jobj []])) = .ok x := by
  cases o with
  | none => exact ⟨.jnull, rfl⟩
  | some val =>
    cases val with
    | jarr xs =>
      cases xs with
      | nil => exact ⟨.jstr "N/A", rfl⟩
      | cons x rest => cases x <;> exact ⟨_, rfl⟩
    | jnull => simp [isArrOpt] at h
    | jbool b => simp [isArrOpt] at h
    | jnum n => simp [isArrOpt] at h
    | jstr s => simp [isArrOpt] at h
    | jobj fs => simp [isArrOpt] at h

lemma updated_ia_ok (o : Option JVal) (h : isArrOpt o = true) :
    ∃ x, (if pyTruthy (o.getD (.jarr [])) then pyIndex0 (o.getD (.jarr []))
      else Except.ok (.jstr "NA")) = .ok x := by
  cases o with
  | none => exact ⟨.jstr "NA", rfl⟩
  | some val =>
    cases val with
    | jarr xs =>
      cases xs with
      | nil => exact ⟨.jstr "NA", rfl⟩
      | cons x rest => exact ⟨x, rfl⟩
    | jnull => simp [isArrOpt] at h
    | jbool b => simp [isArrOpt] at h
    | jnum n => simp [isArrOpt] at h
    | jstr s => simp [isArrOpt] at h
    | jobj fs => simp [isArrOpt] at h

lemma updated_props_eq (o : Option JVal) (h : isAbsentOrEmptyArr o = true) :
    (if pyTruthy (o.getD (.jarr [])) then pyIndex0 (o.getD (.jarr []))
      else Except.ok (.jobj [])) = .ok (.jobj []) := by
  cases o with
  | none => rfl
  | some val =>
    cases val with
    | jarr xs =>
      cases xs with
      | nil => rfl
      | cons x rest => simp [isAbsentOrEmptyArr] at h
    | jnull => simp [isAbsentOrEmptyArr] at h
    | jbool b => simp [isAbsentOrEmptyArr] at h
    | jnum n => simp [isAbsentOrEmptyArr] at h
    | jstr s => simp [isAbsentOrEmptyArr] at h
    | jobj fs => simp [isAbsentOrEmptyArr] at h

lemma propGetOr_empty (k : String) : propGetOr (.jobj []) k = .ok (.jstr "NA") := rfl

lemma cvssTrim_na : cvssTrim (.jstr "NA") = .ok "NA" := rfl

/-- Counterexample to C4: a violation whose `impacted_artifacts` key is
present with an empty list makes `violation.get('impacted_artifacts',
[None])[0]` raise `IndexError` in `get_watch_violations.py` and
`get_xray_violations.py` (the `[None]` default only applies when the key is
absent); only the updated script survives it. -/
theorem c4_empty_impacted_raises :
    rowV1 [("impacted_artifacts", .jarr [])] = .error .indexError
    ∧ rowXray [("impacted_artifacts", .jarr [])] = .error .indexError
    ∧ isOkS (rowUpdated [("impacted_artifacts", .jarr [])]) = true :=
  ⟨rfl, rfl, rfl⟩

/-- C4 as amended: over violations whose `impacted_artifacts` and
`applicability_details` are absent or JSON lists (of arbitrary values — in
particular a non-string first element), whose version-list fields are absent
or lists of strings, and whose `properties` and `extended_information` are
absent or empty, the updated script's row writer never raises; the two
original row writers never raise except when `impacted_artifacts` is present
and an empty list, where both raise `IndexError`. -/
theorem c4_defensive_row_writing (v : List (String × JVal))
    (hia : isArrOpt (dictGet v "impacted_artifacts") = true)
    (had : isArrOpt (dictGet v "applicability_details") = true)
    (hfix : isStrListOpt (dictGet v "fix_versions") = true)
    (hic : isStrListOpt (dictGet v "infected_components") = true)
    (hiv : isStrListOpt (dictGet v "infected_versions") = true)
    (hprop : isAbsentOrEmptyArr (dictGet v "properties") = true)
    (hext : isAbsentOrEmptyObj (dictGet v "extended_information") = true) :
    isOkS (rowUpdated v) = true
    ∧ (dictGet v "impacted_artifacts" ≠ some (.jarr []) →
        isOk (rowV1 v) = true ∧ isOk (rowXray v) = true)
    ∧ (dictGet v "impacted_artifacts" = some (.jarr []) →
        rowV1 v = .error .indexError ∧ rowXray v = .error .indexError) := by
  obtain ⟨ia, hiaeq⟩ := updated_ia_ok _ hia
  obtain ⟨f, hfj⟩ := pyJoin_ok "|" (dictGet v "fix_versions") hfix
  obtain ⟨ic, hicj⟩ := pyJoin_ok "|" (dictGet v "infected_components") hic
  obtain ⟨iv, hivj⟩ := pyJoin_ok "|" (dictGet v "infected_versions") hiv
  have hprops := updated_props_eq _ hprop
  refine ⟨?_, ?_, ?_⟩
  · simp only [rowUpdated, hiaeq, hfj, hicj, hivj, hprops, propGetOr_empty,
      cvssTrim_na, isOkS]
  · intro hne
    obtain ⟨x, hx⟩ := pyIndex0_default_ok _ hia hne
    obtain ⟨vid, hvid⟩ := adVulnId_ok _ had
    constructor
    · simp only [rowV1, hx, hvid, hfj, hicj, hivj, isOk]
    · simp only [rowXray, hx, hvid, isOk]
  · intro heq
    constructor
    · simp only [rowV1, heq, Option.getD, pyIndex0]
    · simp only [rowXray, heq, Option.getD, pyIndex0]

/-- A violation exercising the degenerate shapes: a non-string first impacted
artifact, empty `applicability_details` and `properties`, empty
`extended_information`, and all other fields absent. -/
def c4V : List (String × JVal) :=
  [("impacted_artifacts", .jarr [.jnum 5]),
   ("applicability_details", .jarr []),
   ("properties", .jarr []),
   ("extended_information", .jobj [])]

/-- Witness for the amended C4 at `c4V`. -/
theorem c4_defensive_row_writing_witness :
    isArrOpt (dictGet c4V "impacted_artifacts") = true
    ∧ isArrOpt (dictGet c4V "applicability_details") = true
    ∧ isStrListOpt (dictGet c4V "fix_versions") = true
    ∧ isStrListOpt (dictGet c4V "infected_components") = true
    ∧ isStrListOpt (dictGet c4V "infected_versions") = true
    ∧ isAbsentOrEmptyArr (dictGet c4V "properties") = true
    ∧ isAbsentOrEmptyObj (dictGet c4V "extended_information") = true
    ∧ isOkS (rowUpdated c4V) = true
    ∧ isOk (rowV1 c4V) = true
    ∧ isOk (rowXray c4V) = true := by
  have h := c4_defensive_row_writing c4V rfl rfl rfl rfl rfl rfl rfl
  have hne : dictGet c4V "impacted_artifacts" ≠ some (.jarr []) := by
    simp [c4V, dictGet]
  exact ⟨rfl, rfl, rfl, rfl, rfl, rfl, rfl, h.1, (h.2.1 hne).1, (h.2.1 hne).2⟩

end ScriptShare
